import Mathlib

/-!
The gpsd driver of rc-flight (`src/drivers/gps_gpsd.cpp`).

A shallow embedding of `gpsd_t::process_buffer`, `gpsd_t::parse_message`,
`gpsd_t::send_init`, `gpsd_t::connect` and `gpsd_t::read`, followed by the
properties proved about them.

Conventions of the embedding.

* A `std::string` is a `List Char` (one `Char` per byte).
* The C++ `int` variables `start`, `end`, `level` are `Int`, the
  `unsigned int` loop index `i` is a `Nat`.  No wrap-around is modelled for
  them: the embedding agrees with the C++ code for every buffer shorter than
  `2 ^ 31` bytes, which is the only regime in which the C++ loop is defined.
  The `int -> size_t` conversions at the `substr` and `erase` calls are
  modelled (`toSize`).
* `parse_message` is called for its effect; `process_buffer` is modelled as
  returning, next to the new buffer and its `bool` result, the list of the
  strings it passed to `parse_message`, in call order.
* C `double` is a type parameter `F` (an ordered field); the narrowing to
  `float` is the function `to_float` of the environment.  The calls
  `sin(angle_rad)` and `cos(angle_rad)` have a `float` argument and resolve to
  the `float` overloads; their product with the `float` `speed_mps` is a
  `float`, so it is narrowed before `setDouble` widens it.
* A `std::string` built from the `const char*` of `GetString()` ends at the
  first NUL character of the JSON string (`c_str`).
* A failed rapidjson assertion (an accessor applied to a value of the wrong
  type) is the result `none`.
* `get_Time()` is an input: each call site takes the reading of the clock as
  an argument.
* The `printf` diagnostics and the `verbose` flag are left out.
-/

namespace Gpsd

/-! ## Strings -/

/-- Conversion of a C++ `int` to `size_t` (64-bit). -/
def toSize (z : Int) : Nat :=
  if z < 0 then (z + 18446744073709551616).toNat else z.toNat

/-- The call `std::string::substr(pos, n)` with `int` arguments. -/
def substr (s : List Char) (pos n : Int) : List Char :=
  (s.drop (toSize pos)).take (toSize n)

/-- The call `std::string::erase(0, n)` with an `int` argument. -/
def erase0 (s : List Char) (n : Int) : List Char :=
  s.drop (toSize n)

/-- The `std::string` built from a `const char*`: the text up to its first
NUL character. -/
def c_str (s : String) : String :=
  String.mk (s.data.takeWhile (· ≠ Char.ofNat 0))

/-! ## `gpsd_t::process_buffer` -/

/-- What one run of the scanning loop leaves behind: the strings handed to
`parse_message` and the buffer. -/
structure Scan where
  passed : List (List Char)
  buffer : List Char
deriving DecidableEq, Repr

/-- The `for` loop of `process_buffer` (lines 179-197).  `json_buffer` is the
whole buffer, the second argument is what is left to scan of it
(`json_buffer[i], json_buffer[i+1], ...`); `i`, `start`, `level` are the
loop variables on entry to the iteration. -/
def scan (json_buffer : List Char) : List Char → Nat → Int → Int → Scan
  | [], _, _, _ => ⟨[], json_buffer⟩
  | c :: cs, i, start, level =>
    -- if ( json_buffer[i] == '{' ) { if ( level == 0 ) { start = i; } level++; }
    let start1 : Int := if c = '{' ∧ level = 0 then (i : Int) else start
    let level1 : Int := if c = '{' then level + 1 else level
    -- if ( json_buffer[i] == '}' ) { level--; if ( level == 0 ) { ...; break; } }
    if c = '}' then
      let level2 := level1 - 1
      if level2 = 0 then
        let end_ : Int := (i : Int)
        ⟨[substr json_buffer start1 (end_ - start1 + 1)], erase0 json_buffer (end_ + 1)⟩
      else
        scan json_buffer cs (i + 1) start1 level2
    else
      scan json_buffer cs (i + 1) start1 level1

/-- Result of `process_buffer`: the strings passed to `parse_message`, the
buffer left in `json_buffer`, and the returned `bool`. -/
structure Processed where
  passed : List (List Char)
  buffer : List Char
  ret : Bool
deriving DecidableEq, Repr

/-- The function `gpsd_t::process_buffer` (lines 170-209). -/
def process_buffer (json_buffer : List Char) : Processed :=
  if json_buffer.length ≤ 2 then
    ⟨[], json_buffer, false⟩
  else
    let r := scan json_buffer json_buffer 0 0 0
    if r.buffer.length > 16384 then
      ⟨r.passed, [], true⟩
    else
      ⟨r.passed, r.buffer, false⟩

/-- Outcome of `n` successive calls of `process_buffer`: for each call, in
order, the strings it passed to `parse_message`; and the final buffer. -/
def process_n : Nat → List Char → List (List (List Char)) × List Char
  | 0, buf => ([], buf)
  | n + 1, buf =>
    let r := process_buffer buf
    let t := process_n n r.buffer
    (r.passed :: t.1, t.2)

/-! ## Brace depth -/

/-- Brace depth of a text: `+1` per opening brace, `-1` per closing brace. -/
def depth (s : List Char) : Int := (s.count '{' : Int) - (s.count '}' : Int)

/-- A text without any brace. -/
def BraceFree (s : List Char) : Prop := '{' ∉ s ∧ '}' ∉ s

instance (s : List Char) : Decidable (BraceFree s) := by
  unfold BraceFree; infer_instance

/-- A brace-balanced object text: opens with a brace, has depth 0 at its end
and strictly positive depth after every non-empty proper prefix. -/
def Balanced (obj : List Char) : Prop :=
  obj.head? = some '{' ∧ depth obj = 0 ∧
    ∀ k, k < obj.length → 0 < k → 0 < depth (obj.take k)

instance (obj : List Char) : Decidable (Balanced obj) := by
  unfold Balanced; infer_instance

/-- No closing brace of the text brings the depth, counted from the start of
the text, back to zero. -/
def NeverCloses (buf : List Char) : Prop :=
  ∀ k, k < buf.length → buf[k]? = some '}' → depth (buf.take (k + 1)) ≠ 0

instance (buf : List Char) : Decidable (NeverCloses buf) := by
  unfold NeverCloses; infer_instance

/-- The buffer made of the `(noise, object)` pairs of `segs`, in order,
followed by `tail`. -/
def stream : List (List Char × List Char) → List Char → List Char
  | [], tail => tail
  | s :: segs, tail => s.1 ++ s.2 ++ stream segs tail

/-! ## External collaborators of `parse_message`

The numeric type `F` stands for C `double`; the development is generic in it
so that the definitions can be evaluated (`F := ℚ`) and so that statements
over exact real arithmetic can be made (`F := ℝ`). -/

/-- A parsed JSON value as held by a `rapidjson::Value`.  A number is either
flagged as an integer (`int`) or held as a double (`real`). -/
inductive Json (F : Type) where
  | null : Json F
  | bool (b : Bool) : Json F
  | int (i : Int) : Json F
  | real (x : F) : Json F
  | str (s : String) : Json F
  | arr (elems : List (Json F)) : Json F
  | obj (members : List (String × Json F)) : Json F

namespace Json

variable {F : Type}

/-- The call `Value::HasMember(name)`; rapidjson asserts that the value is an object
(`none` is the failed assertion). -/
def HasMember : Json F → String → Option Bool
  | obj members, name => some (members.lookup name).isSome
  | _, _ => none

/-- The call `Value::operator[](name)`; it asserts an object that has the member. -/
def member : Json F → String → Option (Json F)
  | obj members, name => members.lookup name
  | _, _ => none

/-- The call `Value::GetString()`; it asserts a string.  The result stands
for the `const char*` the call returns: the source turns it into a
`std::string` at once, which is `c_str` of it. -/
def GetString : Json F → Option String
  | str s => some s
  | _ => none

/-- The call `Value::GetBool()`; it asserts a boolean. -/
def GetBool : Json F → Option Bool
  | bool b => some b
  | _ => none

/-- The call `Value::GetInt()`; it asserts a number flagged as a 32-bit `int`. -/
def GetInt : Json F → Option Int
  | int i => if -2147483648 ≤ i ∧ i ≤ 2147483647 then some i else none
  | _ => none

/-- The call `Value::GetDouble()`; it asserts a number and converts an integer. -/
def GetDouble [IntCast F] : Json F → Option F
  | int i => some (i : F)
  | real x => some x
  | _ => none

end Json

/-- A value stored in a property node. -/
inductive PropVal (F : Type) where
  | double (x : F) : PropVal F
  | int (i : Int) : PropVal F
deriving DecidableEq, Repr

/-- Modelled from the spec: the external property store (`PropertyNode`, not
part of these sources), "a generic path-addressed get/set key-value store"
with typed setters and getters; a node is the map from field name to the
value last set. -/
def PropertyNode (F : Type) : Type := String → Option (PropVal F)

namespace PropertyNode

variable {F : Type}

/-- The call `PropertyNode::setDouble(name, val)`. -/
def setDouble (n : PropertyNode F) (name : String) (val : F) : PropertyNode F :=
  fun k => if k = name then some (PropVal.double val) else n k

/-- The call `PropertyNode::setInt(name, val)`. -/
def setInt (n : PropertyNode F) (name : String) (val : Int) : PropertyNode F :=
  fun k => if k = name then some (PropVal.int val) else n k

/-- The call `PropertyNode::getDouble(name)`; a field never set reads as zero. -/
def getDouble [Zero F] [IntCast F] (n : PropertyNode F) (name : String) : F :=
  match n name with
  | some (PropVal.double x) => x
  | some (PropVal.int i) => (i : F)
  | none => 0

end PropertyNode

/-- The broken-down time filled in by `strptime`. -/
structure tm where
  tm_sec : Int
  tm_min : Int
  tm_hour : Int
  tm_mday : Int
  tm_mon : Int
  tm_year : Int
deriving DecidableEq, Repr

/-- The library functions `parse_message` calls. -/
structure Env (F : Type) where
  /-- The call `rapidjson::Document::Parse`; `Json.null` on a parse error. -/
  Parse : List Char → Json F
  /-- The call `strptime(s, "%Y-%m-%dT%H:%M:%S", &t)`: `none` for a null result, else
  the time read and the unparsed rest of `s` (the returned pointer). -/
  strptime : String → Option (tm × String)
  /-- The call `timegm(&t)`, converted to `double`. -/
  timegm : tm → F
  /-- The call `atof(ptr)`. -/
  atof : String → F
  /-- The function `sin` of `math.h`, at the `float` overload the call
  `sin(angle_rad)` resolves to. -/
  sin : F → F
  /-- The function `cos` of `math.h`, at the `float` overload the call
  `cos(angle_rad)` resolves to. -/
  cos : F → F
  /-- The constant `M_PI` of `math.h`. -/
  M_PI : F
  /-- The narrowing of a `double` to `float`. -/
  to_float : F → F

/-! ## The driver state -/

/-- The members of `gpsd_t` the modelled functions read or write.
`send_init_calls` is a ghost counter of the invocations of `send_init`. -/
structure gpsd_t (F : Type) where
  gps_node : PropertyNode F
  leapseconds : F
  json_buffer : List Char
  socket_connected : Bool
  init_string : List Char
  last_init_time : F
  send_init_calls : Nat

section Driver

variable {F : Type} [LinearOrderedField F]

/-- The call `Value::GetFloat()`: `GetDouble()` narrowed to `float`. -/
def GetFloat (E : Env F) (v : Json F) : Option F :=
  (v.GetDouble).map E.to_float

/-- The statement `if ( d.HasMember(name) ) { body(d[name]) }` acting on a
value `g`. -/
def if_member {σ : Type} (d : Json F) (name : String) (g : σ)
    (body : Json F → σ → Option σ) : Option σ :=
  (d.HasMember name).bind fun has =>
    if has then (d.member name).bind fun v => body v g else some g

/-! ## `gpsd_t::parse_message` -/

/-- The `TPV` branch of `parse_message` (lines 97-147).  `now` is the reading
`get_Time()` returns.  The `printf` diagnostics are not modelled. -/
def parse_message_TPV (E : Env F) (now : F) (d : Json F) (g : gpsd_t F) :
    Option (gpsd_t F) := do
  -- if ( d.HasMember("time") ) { ... }
  let g ← if_member d "time" g fun v g => do
    -- string time_str = d["time"].GetString();
    let time_str := c_str (← v.GetString)
    match E.strptime time_str with
    | none => pure g
    | some (t, ptr) =>
      let t2 := E.timegm t
      let t2 := if ptr ≠ "" then t2 + E.atof ptr else t2
      pure { g with
        gps_node := (g.gps_node.setDouble "unix_time_sec" t2).setDouble "timestamp" now }
  -- if ( d.HasMember("leapseconds") ) { ... }
  let g ← if_member d "leapseconds" g fun v g => do
    let x ← v.GetDouble
    pure { g with leapseconds := x, gps_node := g.gps_node.setDouble "leapseconds" x }
  let g ← if_member d "lat" g fun v g => do
    let x ← v.GetDouble
    pure { g with gps_node := g.gps_node.setDouble "latitude_deg" x }
  let g ← if_member d "lon" g fun v g => do
    let x ← v.GetDouble
    pure { g with gps_node := g.gps_node.setDouble "longitude_deg" x }
  let g ← if_member d "alt" g fun v g => do
    let x ← GetFloat E v
    pure { g with gps_node := g.gps_node.setDouble "altitude_m" x }
  -- float course_deg = 0.0; if ( d.HasMember("track") ) { ... }
  let course_deg ← if_member d "track" (0 : F) fun v _ => GetFloat E v
  let speed_mps ← if_member d "speed" (0 : F) fun v _ => GetFloat E v
  -- float angle_rad = (90.0 - course_deg) * M_PI/180.0;
  let angle_rad := E.to_float ((90 - course_deg) * E.M_PI / 180)
  -- the products are `float * float`, widened by `setDouble`
  let g := { g with
    gps_node := g.gps_node.setDouble "vn_mps" (E.to_float (E.sin angle_rad * speed_mps)) }
  let g := { g with
    gps_node := g.gps_node.setDouble "ve_mps" (E.to_float (E.cos angle_rad * speed_mps)) }
  let g ← if_member d "climb" g fun v g => do
    let x ← GetFloat E v
    pure { g with gps_node := g.gps_node.setDouble "vd_mps" (-x) }
  let g ← if_member d "mode" g fun v g => do
    let x ← v.GetInt
    pure { g with gps_node := g.gps_node.setInt "fixType" x }
  pure g

/-- The `for` loop over `sats` (lines 153-159): `num_sats` after the
elements still to visit. -/
def count_used : List (Json F) → Int → Option Int
  | [], num_sats => some num_sats
  | s :: rest, num_sats =>
    (s.HasMember "used").bind fun has =>
      if has then
        ((s.member "used").bind Json.GetBool).bind fun used =>
          count_used rest (if used then num_sats + 1 else num_sats)
      else
        count_used rest num_sats

/-- The `SKY` branch of `parse_message` (lines 149-162). -/
def parse_message_SKY (d : Json F) (g : gpsd_t F) : Option (gpsd_t F) :=
  if_member d "satellites" g fun sats g => do
    let num_sats ← (match sats with
      | Json.arr elems => count_used elems 0
      | _ => some 0)
    pure { g with gps_node := g.gps_node.setInt "satellites" num_sats }

/-- The function `gpsd_t::parse_message` (lines 86-168): the returned `bool`
and the driver state afterwards; `none` when a rapidjson assertion fails. -/
def parse_message (E : Env F) (now : F) (message : List Char) (g : gpsd_t F) :
    Option (Bool × gpsd_t F) :=
  let d := E.Parse message
  (d.HasMember "class").bind fun has_class =>
    if !has_class then some (false, g)
    else
      -- string msg_class = d["class"].GetString();
      ((d.member "class").bind Json.GetString).bind fun s =>
        let msg_class := c_str s
        if msg_class = "VERSION" then some (true, g)
        else if msg_class = "TPV" then (parse_message_TPV E now d g).map fun g1 => (true, g1)
        else if msg_class = "SKY" then (parse_message_SKY d g).map fun g1 => (true, g1)
        else some (true, g)

/-! ## `gpsd_t::send_init`, `gpsd_t::connect`, `gpsd_t::read` -/

/-- What the outside world answers during one call of `read`. -/
structure Cycle (F : Type) where
  /-- Result of `gpsd_sock.open(true)`. -/
  open_ok : Bool
  /-- Result of `gpsd_sock.connect(host, port)`. -/
  connect_result : Int
  /-- Result of `gpsd_sock.send` inside the `send_init` of `connect`. -/
  connect_send_result : Int
  /-- Clock reading inside the `send_init` of `connect`. -/
  t_connect : F
  /-- The chunks the successive `gpsd_sock.recv` calls deliver. -/
  recv_chunks : List (List Char)
  /-- Whether `errno` is `EAGAIN` after the receive loop. -/
  errno_is_EAGAIN : Bool
  /-- Clock reading inside `parse_message`. -/
  t_parse : F
  /-- Clock reading of the first `get_Time()` of the probe. -/
  t_probe1 : F
  /-- Clock reading of the second `get_Time()` of the probe. -/
  t_probe2 : F
  /-- Result of `gpsd_sock.send` inside the `send_init` of the probe. -/
  probe_send_result : Int
  /-- Clock reading inside the `send_init` of the probe. -/
  t_probe_init : F

/-- The function `gpsd_t::send_init` (lines 48-63). -/
def send_init (send_result : Int) (now : F) (g : gpsd_t F) : gpsd_t F :=
  let g := { g with send_init_calls := g.send_init_calls + 1 }
  if !g.socket_connected then g
  else
    let g :=
      if g.init_string ≠ [] then
        if send_result < 0 then { g with socket_connected := false } else g
      else g
    { g with last_init_time := now }

/-- The function `gpsd_t::connect` (lines 13-45). -/
def connect (W : Cycle F) (g : gpsd_t F) : gpsd_t F :=
  if !W.open_ok then g
  else if W.connect_result < 0 then g
  else send_init W.connect_send_result W.t_connect { g with socket_connected := true }

/-- The call `process_buffer()` inside the driver: the buffer is demarcated
and `parse_message` runs on what is extracted (its result is dropped). -/
def run_process_buffer (E : Env F) (now : F) (g : gpsd_t F) : Option (Bool × gpsd_t F) :=
  let r := process_buffer g.json_buffer
  (r.passed.foldlM (fun g1 m => (parse_message E now m g1).map Prod.snd) g).map fun g1 =>
    (r.ret, { g1 with json_buffer := r.buffer })

/-- The part of `gpsd_t::read` up to and including `process_buffer()`
(lines 212-232). -/
def read_buffer (E : Env F) (W : Cycle F) (g : gpsd_t F) : Option (gpsd_t F) :=
  let g := if !g.socket_connected then connect W g else g
  -- buf[result] = 0; json_buffer += buf;
  let g := W.recv_chunks.foldl
    (fun g1 buf => { g1 with json_buffer := g1.json_buffer ++ buf.takeWhile (· ≠ Char.ofNat 0) }) g
  let g := if !W.errno_is_EAGAIN then { g with socket_connected := false } else g
  (run_process_buffer E W.t_parse g).map Prod.snd

/-- The function `gpsd_t::read` (lines 211-243): the driver state afterwards
(the returned value is the constant `gps_data_valid = false`). -/
def read (E : Env F) (W : Cycle F) (g : gpsd_t F) : Option (gpsd_t F) :=
  (read_buffer E W g).bind fun g =>
    let gps_timestamp := g.gps_node.getDouble "timestamp"
    if W.t_probe1 > gps_timestamp + 5 ∧ W.t_probe2 > g.last_init_time + 5 then
      some (send_init W.probe_send_result W.t_probe_init g)
    else
      some g

end Driver

/-! ## Vocabulary of the statements -/

/-- A satellite descriptor: an object whose `used` member, when there is
one, is a boolean. -/
def Descriptor {F : Type} (s : Json F) : Prop :=
  ∃ ms, s = Json.obj ms ∧ ∀ v, ms.lookup "used" = some v → ∃ b, v = Json.bool b

/-- Whether a value is an object that has a `used` member equal to `true`. -/
def used_true {F : Type} : Json F → Bool
  | Json.obj ms =>
    match ms.lookup "used" with
    | some (Json.bool true) => true
    | _ => false
  | _ => false

/-- The number held by the member `name` of an object, when there is such a
member and it is a number. -/
def num_member {F : Type} [IntCast F] (m : List (String × Json F)) (name : String) :
    Option F :=
  (m.lookup name).bind Json.GetDouble

/-- The members of a `TPV` object have the types of the gpsd schema: `time`
is a string, `mode` a 32-bit integer, the other fields read are numbers. -/
def TPVTyped {F : Type} [IntCast F] (m : List (String × Json F)) : Prop :=
  (∀ v, m.lookup "time" = some v → ∃ s, v = Json.str s) ∧
  (∀ k ∈ ["leapseconds", "lat", "lon", "alt", "track", "speed", "climb"],
    ∀ v, m.lookup k = some v → ∃ x : F, v.GetDouble = some x) ∧
  (∀ v, m.lookup "mode" = some v → ∃ i, v.GetInt = some i)

/-- Exact real arithmetic: `sin`, `cos` and `M_PI` are the real ones and
narrowing to `float` loses nothing. -/
def ExactReal (E : Env ℝ) : Prop :=
  E.sin = Real.sin ∧ E.cos = Real.cos ∧ E.M_PI = Real.pi ∧ E.to_float = id

/-- The members of the `TPV` object `lat=45.0, lon=-122.0, alt=100.0,
track=90.0, speed=10.0, climb=-1.0, mode=3`. -/
def tpv_members (F : Type) [LinearOrderedField F] : List (String × Json F) :=
  [("class", Json.str "TPV"), ("lat", Json.real 45), ("lon", Json.real (-122)),
    ("alt", Json.real 100), ("track", Json.real 90), ("speed", Json.real 10),
    ("climb", Json.real (-1)), ("mode", Json.int 3)]

/-- The `TPV` object `lat=45.0, lon=-122.0, alt=100.0, track=90.0,
speed=10.0, climb=-1.0, mode=3`. -/
def tpv_example (F : Type) [LinearOrderedField F] : Json F :=
  Json.obj (tpv_members F)

/-- The device time `t2` that the `TPV` branch decodes from the `time`
member, when there is one and `strptime` accepts it. -/
def decoded_time {F : Type} [Add F] (E : Env F) (m : List (String × Json F)) : Option F :=
  (m.lookup "time").bind fun v =>
    v.GetString.bind fun s =>
      (E.strptime (c_str s)).map fun r =>
        if r.2 ≠ "" then E.timegm r.1 + E.atof r.2 else E.timegm r.1

/-- The driver after `gps_node.setDouble(key, x)`. -/
def put_double {F : Type} (key : String) (x : F) (g : gpsd_t F) : gpsd_t F :=
  { g with gps_node := g.gps_node.setDouble key x }

/-- The driver after `gps_node.setInt(key, i)`. -/
def put_int {F : Type} (key : String) (i : Int) (g : gpsd_t F) : gpsd_t F :=
  { g with gps_node := g.gps_node.setInt key i }

/-- The driver after the two writes of the `time` block. -/
def put_time {F : Type} (now t2 : F) (g : gpsd_t F) : gpsd_t F :=
  { g with gps_node := (g.gps_node.setDouble "unix_time_sec" t2).setDouble "timestamp" now }

/-- The driver after the two writes of the `leapseconds` block. -/
def put_leapseconds {F : Type} (x : F) (g : gpsd_t F) : gpsd_t F :=
  { g with leapseconds := x, gps_node := g.gps_node.setDouble "leapseconds" x }

/-- Closed form of the `TPV` branch on a typed object: the final driver
state, block by block. -/
def tpv_result {F : Type} [LinearOrderedField F] (E : Env F) (now : F)
    (m : List (String × Json F)) (g : gpsd_t F) : gpsd_t F :=
  let g1 := (decoded_time E m).elim g fun t2 => put_time now t2 g
  let g2 := (num_member m "leapseconds").elim g1 fun x => put_leapseconds x g1
  let g3 := (num_member m "lat").elim g2 fun x => put_double "latitude_deg" x g2
  let g4 := (num_member m "lon").elim g3 fun x => put_double "longitude_deg" x g3
  let g5 := (num_member m "alt").elim g4 fun x => put_double "altitude_m" (E.to_float x) g4
  let course_deg := (num_member m "track").elim 0 E.to_float
  let speed_mps := (num_member m "speed").elim 0 E.to_float
  let angle_rad := E.to_float ((90 - course_deg) * E.M_PI / 180)
  let g6 := put_double "ve_mps" (E.to_float (E.cos angle_rad * speed_mps))
    (put_double "vn_mps" (E.to_float (E.sin angle_rad * speed_mps)) g5)
  let g7 := (num_member m "climb").elim g6 fun x => put_double "vd_mps" (-(E.to_float x)) g6
  ((m.lookup "mode").bind Json.GetInt).elim g7 fun i => put_int "fixType" i g7

/-! ## Sample inputs -/

/-- The time `2024-05-01T12:00:00`, broken down. -/
def sample_tm : tm := ⟨0, 0, 12, 1, 4, 124⟩

/-- An environment for the examples: `Parse` knows the one text `text`,
`strptime`, `timegm` and `atof` know the one time `2024-05-01T12:00:00.250Z`;
the mathematical functions are given. -/
def sample_env (F : Type) [LinearOrderedField F] (text : List Char) (doc : Json F)
    (sin cos : F → F) (pi : F) : Env F where
  Parse := fun s => if s = text then doc else Json.null
  strptime := fun s =>
    if s = "2024-05-01T12:00:00.250Z" then some (sample_tm, ".250Z") else none
  timegm := fun _ => 1714564800
  atof := fun s => if s = ".250Z" then 1 / 4 else 0
  sin := sin
  cos := cos
  M_PI := pi
  to_float := id

/-- A connected driver with an empty record and an empty buffer. -/
def sample_gpsd (F : Type) [LinearOrderedField F] : gpsd_t F where
  gps_node := fun _ => none
  leapseconds := 0
  json_buffer := []
  socket_connected := true
  init_string := "?WATCH=\x7b\"enable\":true,\"json\":true\x7d".toList
  last_init_time := 0
  send_init_calls := 0

/-- The text of a `SKY` report with three satellites, two of them used. -/
def sky_text : List Char :=
  ("\x7b\"class\":\"SKY\",\"satellites\":[\x7b\"PRN\":3,\"used\":true\x7d," ++
    "\x7b\"PRN\":7,\"used\":false\x7d,\x7b\"PRN\":9,\"used\":true\x7d]\x7d").toList

/-- The document of `sky_text`. -/
def sky_doc (F : Type) : Json F :=
  Json.obj [("class", Json.str "SKY"),
    ("satellites", Json.arr [
      Json.obj [("PRN", Json.int 3), ("used", Json.bool true)],
      Json.obj [("PRN", Json.int 7), ("used", Json.bool false)],
      Json.obj [("PRN", Json.int 9), ("used", Json.bool true)]])]

/-- The text of a `TPV` report without a `time` member. -/
def tpv_text : List Char :=
  ("\x7b\"class\":\"TPV\",\"lat\":45.0,\"lon\":-122.0,\"alt\":100.0,\"track\":90.0," ++
    "\"speed\":10.0,\"climb\":-1.0,\"mode\":3\x7d").toList

/-- The text of a `TPV` report with a `time` member. -/
def tpv_time_text : List Char :=
  "\x7b\"class\":\"TPV\",\"time\":\"2024-05-01T12:00:00.250Z\",\"mode\":3\x7d".toList

/-- The members of the document of `tpv_time_text`. -/
def tpv_time_members (F : Type) : List (String × Json F) :=
  [("class", Json.str "TPV"), ("time", Json.str "2024-05-01T12:00:00.250Z"),
    ("mode", Json.int 3)]

/-- The document of `tpv_time_text`. -/
def tpv_time_doc (F : Type) : Json F :=
  Json.obj (tpv_time_members F)

/-- The text of a report of a class the driver does not handle. -/
def devices_text : List Char := "\x7b\"class\":\"DEVICES\",\"devices\":[]\x7d".toList

/-- The document of `devices_text`. -/
def devices_doc (F : Type) : Json F :=
  Json.obj [("class", Json.str "DEVICES"), ("devices", Json.arr [])]

/-- The text of a report whose `class` holds a NUL character after `TPV`. -/
def nul_class_text : List Char :=
  "\x7b\"class\":\"TPV\\u0000x\",\"lat\":1.5\x7d".toList

/-- The members of the document of `nul_class_text`. -/
def nul_class_members (F : Type) [LinearOrderedField F] : List (String × Json F) :=
  [("class", Json.str "TPV\x00x"), ("lat", Json.real (3 / 2))]

/-- The text of a report whose `class` is a number. -/
def number_class_text : List Char := "\x7b\"class\":5\x7d".toList

/-- The members of the document of `number_class_text`. -/
def number_class_members (F : Type) : List (String × Json F) :=
  [("class", Json.int 5)]

/-- A connected driver whose record was stamped at host time 10. -/
def stamped_gpsd (F : Type) [LinearOrderedField F] : gpsd_t F :=
  { sample_gpsd F with
    gps_node := (sample_gpsd F).gps_node.setDouble "timestamp" 10 }

/-- A cycle in which the socket delivers `chunks`, every clock reading is
`t` and every socket call succeeds. -/
def sample_cycle (F : Type) [LinearOrderedField F] (t : F) (chunks : List (List Char)) :
    Cycle F where
  open_ok := true
  connect_result := 0
  connect_send_result := 0
  t_connect := t
  recv_chunks := chunks
  errno_is_EAGAIN := true
  t_parse := t
  t_probe1 := t
  t_probe2 := t
  probe_send_result := 0
  t_probe_init := t

/-- The shape of a brace-matched message: it opens with `{`, closes with `}`,
holds as many `{` as `}`, and each of its non-empty proper prefixes holds
strictly more `{` than `}`. -/
def WellBraced (m : List Char) : Prop :=
  m.head? = some '{' ∧ m.getLast? = some '}' ∧ m.count '{' = m.count '}' ∧
    ∀ p s, m = p ++ s → p ≠ [] → s ≠ [] → p.count '}' < p.count '{'

/-- Loop invariant while `level ≥ 1`: the scanned part `pre` of the buffer has
as a suffix a segment that begins at index `start` with `{`, has depth
`level`, and all of whose non-empty prefixes have positive depth. -/
def OpenAt (pre : List Char) (start level : Int) : Prop :=
  ∃ a seg, pre = a ++ seg ∧ start = (a.length : Int) ∧ seg.head? = some '{' ∧
    depth seg = level ∧ ∀ p s, seg = p ++ s → p ≠ [] → 0 < depth p

/-! ## Lemmas on brace depth -/

theorem depth_nil : depth [] = 0 := by simp [depth]

theorem depth_append (a b : List Char) : depth (a ++ b) = depth a + depth b := by
  simp only [depth, List.count_append]
  push_cast
  ring

theorem depth_cons (c : Char) (s : List Char) : depth (c :: s) = depth [c] + depth s :=
  depth_append [c] s

theorem depth_open : depth ['{'] = 1 := by decide

theorem depth_close : depth ['}'] = -1 := by decide

theorem depth_other (c : Char) (h1 : c ≠ '{') (h2 : c ≠ '}') : depth [c] = 0 := by
  simp [depth, List.count_cons, h1, h2]

theorem depth_brace_free (s : List Char) (h : BraceFree s) : depth s = 0 := by
  simp [depth, List.count_eq_zero_of_not_mem h.1, List.count_eq_zero_of_not_mem h.2]

theorem toSize_natCast (n : Nat) : toSize (n : Int) = n := by
  simp [toSize]

/-! ## The scanning loop -/

/-- One iteration of the loop on an opening brace. -/
theorem scan_open (B cs : List Char) (i : Nat) (start level : Int) :
    scan B ('{' :: cs) i start level
      = scan B cs (i + 1) (if level = 0 then (i : Int) else start) (level + 1) := by
  simp [scan]

/-- One iteration of the loop on a closing brace. -/
theorem scan_close (B cs : List Char) (i : Nat) (start level : Int) :
    scan B ('}' :: cs) i start level
      = if level - 1 = 0 then
          ⟨[substr B start ((i : Int) - start + 1)], erase0 B ((i : Int) + 1)⟩
        else scan B cs (i + 1) start (level - 1) := by
  simp [scan]

/-- One iteration of the loop on any other character. -/
theorem scan_other (B cs : List Char) (c : Char) (i : Nat) (start level : Int)
    (h1 : c ≠ '{') (h2 : c ≠ '}') :
    scan B (c :: cs) i start level = scan B cs (i + 1) start level := by
  simp [scan, h1, h2]

/-- Scanning brace-free text changes neither `start` nor `level`. -/
theorem scan_brace_free (B : List Char) (noise cs : List Char) (i : Nat) (start level : Int)
    (h : BraceFree noise) :
    scan B (noise ++ cs) i start level = scan B cs (i + noise.length) start level := by
  induction noise generalizing i with
  | nil => simp
  | cons c t ih =>
    have hc1 : c ≠ '{' := fun e => h.1 (by simp [e])
    have hc2 : c ≠ '}' := fun e => h.2 (by simp [e])
    have ht : BraceFree t :=
      ⟨fun m => h.1 (List.mem_cons_of_mem _ m), fun m => h.2 (List.mem_cons_of_mem _ m)⟩
    rw [List.cons_append, scan_other B _ c i start level hc1 hc2, ih (i + 1) ht]
    simp [Nat.add_assoc, Nat.add_comm 1]

/-- One iteration that neither records a start nor extracts. -/
theorem scan_step (B cs : List Char) (c : Char) (i : Nat) (start level : Int)
    (h0 : c = '{' → level ≠ 0) (h1 : c = '}' → level - 1 ≠ 0) :
    scan B (c :: cs) i start level = scan B cs (i + 1) start (level + depth [c]) := by
  by_cases e1 : c = '{'
  · subst e1
    rw [scan_open, depth_open, if_neg (h0 rfl)]
  · by_cases e2 : c = '}'
    · subst e2
      rw [scan_close, depth_close, if_neg (h1 rfl)]
      rfl
    · rw [scan_other B cs c i start level e1 e2, depth_other c e1 e2, Int.add_zero]

/-- A single character that brings a depth of at least one to zero is a
closing brace, and the depth was one. -/
theorem close_of_depth (c : Char) (level : Int) (h1 : 1 ≤ level)
    (h2 : level + depth [c] = 0) : c = '}' ∧ level = 1 := by
  by_cases e1 : c = '{'
  · subst e1; rw [depth_open] at h2; omega
  · by_cases e2 : c = '}'
    · subst e2; rw [depth_close] at h2; exact ⟨rfl, by omega⟩
    · rw [depth_other c e1 e2] at h2; omega

/-- Scanning, at depth `level ≥ 1`, a text that returns the depth to zero
exactly at its last character: the loop extracts at that character. -/
theorem scan_to_close (B rest : List Char) :
    ∀ (cs : List Char) (i : Nat) (start level : Int), 1 ≤ level → cs ≠ [] →
      level + depth cs = 0 →
      (∀ p s, cs = p ++ s → p ≠ [] → s ≠ [] → 0 < level + depth p) →
      scan B (cs ++ rest) i start level
        = ⟨[substr B start (((i + cs.length - 1 : Nat) : Int) - start + 1)],
            erase0 B (((i + cs.length - 1 : Nat) : Int) + 1)⟩ := by
  intro cs
  induction cs with
  | nil => intro i start level _ h; exact absurd rfl h
  | cons c t ih =>
    intro i start level hl _ hd hp
    by_cases ht : t = []
    · subst ht
      obtain ⟨hc, hl1⟩ := close_of_depth c level hl hd
      subst hc
      subst hl1
      rw [List.cons_append, scan_close]
      simp
    · have h1 : 0 < level + depth [c] := hp [c] t rfl (by simp) ht
      rw [depth_cons] at hd
      have hstep : scan B (c :: (t ++ rest)) i start level
          = scan B (t ++ rest) (i + 1) start (level + depth [c]) := by
        apply scan_step
        · intro _; omega
        · intro e; subst e; rw [depth_close] at h1; omega
      rw [List.cons_append, hstep, ih (i + 1) start (level + depth [c]) (by omega) ht
        (by omega)]
      · have e : i + 1 + t.length - 1 = i + (c :: t).length - 1 := by
          simp only [List.length_cons]; omega
        rw [e]
      · intro p s hps hpne hsne
        have := hp (c :: p) s (by rw [hps]; rfl) (by simp) hsne
        rw [depth_cons] at this
        omega

/-- Scanning a text in which no closing brace brings the depth to zero: the
loop runs to the end of the buffer without extracting. -/
theorem scan_none (B : List Char) :
    ∀ (cs : List Char) (i : Nat) (start level : Int),
      (∀ p s, cs = p ++ '}' :: s → level + depth (p ++ ['}']) ≠ 0) →
      scan B cs i start level = ⟨[], B⟩ := by
  intro cs
  induction cs with
  | nil => intro i start level _; rfl
  | cons c t ih =>
    intro i start level h
    have hrec : ∀ p s, t = p ++ '}' :: s → level + depth [c] + depth (p ++ ['}']) ≠ 0 := by
      intro p s hps
      have := h (c :: p) s (by rw [hps]; rfl)
      rw [List.cons_append, depth_cons] at this
      omega
    by_cases e1 : c = '{'
    · subst e1
      rw [scan_open]
      rw [depth_open] at hrec
      exact ih _ _ _ hrec
    · by_cases e2 : c = '}'
      · subst e2
        have h0 := h [] t rfl
        rw [List.nil_append, depth_close] at h0
        rw [scan_close, if_neg (by omega)]
        rw [depth_close] at hrec
        exact ih _ _ _ hrec
      · rw [scan_other B t c i start level e1 e2]
        rw [depth_other c e1 e2, Int.add_zero] at hrec
        exact ih _ _ _ hrec

/-- The prefix condition of `Balanced`, in terms of splittings. -/
theorem balanced_append {obj : List Char} (h : Balanced obj) :
    obj.head? = some '{' ∧ depth obj = 0 ∧
      ∀ p s, obj = p ++ s → p ≠ [] → s ≠ [] → 0 < depth p := by
  refine ⟨h.1, h.2.1, ?_⟩
  intro p s hps hp hs
  have hk := h.2.2 p.length
    (by rw [hps, List.length_append]
        have := List.length_pos.mpr hs
        omega)
    (List.length_pos.mpr hp)
  rwa [hps, List.take_left'] at hk
  rfl

/-- The condition of `NeverCloses`, in terms of splittings. -/
theorem neverCloses_append {buf : List Char} (h : NeverCloses buf) :
    ∀ p s, buf = p ++ '}' :: s → depth (p ++ ['}']) ≠ 0 := by
  intro p s hps
  have hk := h p.length (by rw [hps]; simp)
    (by rw [hps, List.getElem?_append_right (Nat.le_refl _)]; simp)
  have e : List.take (p.length + 1) buf = p ++ ['}'] := by
    rw [hps]
    have : p ++ '}' :: s = (p ++ ['}']) ++ s := by simp
    rw [this, List.take_left']
    simp
  rwa [e] at hk

theorem substr_natCast (s : List Char) (a b : Nat) :
    substr s (a : Int) (b : Int) = (s.drop a).take b := by
  simp [substr, toSize_natCast]

theorem erase0_natCast (s : List Char) (a : Nat) : erase0 s (a : Int) = s.drop a := by
  simp [erase0, toSize_natCast]

/-- The loop on `noise ++ obj ++ rest`: it extracts `obj` and leaves `rest`. -/
theorem scan_extract (noise obj rest : List Char) (hn : BraceFree noise) (ho : Balanced obj) :
    scan (noise ++ obj ++ rest) (noise ++ obj ++ rest) 0 0 0 = ⟨[obj], rest⟩ := by
  obtain ⟨hhead, hdepth, hpos⟩ := balanced_append ho
  cases obj with
  | nil => simp at hhead
  | cons c body =>
    simp only [List.head?_cons, Option.some.injEq] at hhead
    subst hhead
    have hbody : body ≠ [] := by
      intro e; subst e; rw [depth_open] at hdepth; omega
    rw [depth_cons, depth_open] at hdepth
    generalize hB : noise ++ '{' :: body ++ rest = B
    have hB2 : B = noise ++ ('{' :: (body ++ rest)) := by
      rw [← hB]; simp
    conv_lhs => arg 2; rw [hB2]
    rw [scan_brace_free B noise _ 0 0 0 hn, scan_open, if_pos rfl,
      scan_to_close B rest body _ _ (0 + 1) (by omega) hbody (by omega)]
    · have e1 : (((0 + noise.length + 1 + body.length - 1 : Nat) : Int)
          - ((0 + noise.length : Nat) : Int) + 1) = ((body.length + 1 : Nat) : Int) := by
        push_cast
        omega
      have e2 : (((0 + noise.length + 1 + body.length - 1 : Nat) : Int) + 1)
          = ((noise.length + (body.length + 1) : Nat) : Int) := by
        push_cast
        omega
      rw [e1, e2, substr_natCast, erase0_natCast, hB2]
      simp
    · intro p s hps hpne hsne
      have := hpos ('{' :: p) s (by rw [hps]; rfl) (by simp) hsne
      rw [depth_cons, depth_open] at this
      omega

/-- The call `process_buffer` on `noise ++ obj ++ rest`. -/
theorem process_buffer_extract (noise obj rest : List Char)
    (hlen : 2 < (noise ++ obj ++ rest).length) (hn : BraceFree noise) (ho : Balanced obj) :
    process_buffer (noise ++ obj ++ rest)
      = if rest.length > 16384 then ⟨[obj], [], true⟩ else ⟨[obj], rest, false⟩ := by
  unfold process_buffer
  rw [if_neg (by omega)]
  simp only [scan_extract noise obj rest hn ho]

/-- The call `process_buffer` on a buffer holding no complete object. -/
theorem process_buffer_none (buf : List Char)
    (h : ∀ p s, buf = p ++ '}' :: s → depth (p ++ ['}']) ≠ 0) :
    process_buffer buf
      = if buf.length > 16384 then ⟨[], [], true⟩ else ⟨[], buf, false⟩ := by
  unfold process_buffer
  have hs : scan buf buf 0 0 0 = ⟨[], buf⟩ :=
    scan_none buf buf 0 0 0 (by intro p s hps; rw [Int.zero_add]; exact h p s hps)
  by_cases hl : buf.length ≤ 2
  · rw [if_pos hl, if_neg (by omega)]
  · rw [if_neg hl]
    simp only [hs]

/-! ## Shape of what the loop extracts -/

theorem openAt_extend (pre : List Char) (c : Char) (start level : Int)
    (h : OpenAt pre start level) (hc : 0 < level + depth [c]) :
    OpenAt (pre ++ [c]) start (level + depth [c]) := by
  obtain ⟨a, seg, hpre, hstart, hhead, hdepth, hpos⟩ := h
  have hne : seg ≠ [] := by intro e; subst e; simp at hhead
  refine ⟨a, seg ++ [c], by rw [hpre, List.append_assoc], hstart, ?_, ?_, ?_⟩
  · rw [List.head?_append, hhead]; rfl
  · rw [depth_append, hdepth]
  · intro p s hps hpne
    rcases List.append_eq_append_iff.mp hps with ⟨x, hp, hx⟩ | ⟨y, hseg, _⟩
    · cases x with
      | nil =>
        rw [List.append_nil] at hp
        rw [hp]
        exact hpos seg [] (by simp) hne
      | cons d x =>
        simp only [List.cons_append, List.cons.injEq] at hx
        obtain ⟨hd, hx⟩ := hx
        have hx2 : x = [] := by
          cases x with
          | nil => rfl
          | cons _ _ => simp at hx
        rw [hp, hx2, ← hd, depth_append, hdepth]
        exact hc
    · exact hpos p y hseg hpne

theorem wellBraced_close (seg : List Char) (hhead : seg.head? = some '{')
    (hdepth : depth seg = 1) (hpos : ∀ p s, seg = p ++ s → p ≠ [] → 0 < depth p) :
    WellBraced (seg ++ ['}']) := by
  refine ⟨?_, List.getLast?_concat seg, ?_, ?_⟩
  · rw [List.head?_append, hhead]; rfl
  · have := depth_append seg ['}']
    rw [hdepth, depth_close] at this
    unfold depth at this
    omega
  · intro p s hps hpne hsne
    have hp : 0 < depth p := by
      rcases List.append_eq_append_iff.mp hps with ⟨x, hp, hx⟩ | ⟨y, hseg, _⟩
      · cases x with
        | nil =>
          rw [List.append_nil] at hp
          rw [hp, hdepth]
          exact Int.one_pos
        | cons d x =>
          simp only [List.cons_append, List.cons.injEq] at hx
          obtain ⟨_, hx⟩ := hx
          cases x with
          | nil => exact absurd hx.symm (by simpa using hsne)
          | cons _ _ => simp at hx
      · exact hpos p y hseg hpne
    unfold depth at hp
    omega

/-- Every string the loop extracts is brace-matched. -/
theorem scan_wellBraced (B : List Char) :
    ∀ (cs pre : List Char) (start level : Int), B = pre ++ cs →
      (1 ≤ level → OpenAt pre start level) →
      ∀ m ∈ (scan B cs pre.length start level).passed, WellBraced m := by
  intro cs
  induction cs with
  | nil => intro pre start level _ _ m hm; simp [scan] at hm
  | cons c t ih =>
    intro pre start level hB hinv m hm
    have hB2 : B = (pre ++ [c]) ++ t := by rw [hB]; simp
    have hlen : (pre ++ [c]).length = pre.length + 1 := by simp
    by_cases e1 : c = '{'
    · subst e1
      rw [scan_open, ← hlen] at hm
      refine ih (pre ++ ['{']) _ _ hB2 ?_ m hm
      intro h1
      by_cases h0 : level = 0
      · subst h0
        rw [if_pos rfl]
        exact ⟨pre, ['{'], rfl, rfl, rfl, by rw [depth_open]; rfl, by
          intro p s hps hpne
          cases p with
          | nil => exact absurd rfl hpne
          | cons d p =>
            simp only [List.cons_append, List.cons.injEq] at hps
            obtain ⟨hd, hps⟩ := hps
            have hp : p = [] := by
              cases p with
              | nil => rfl
              | cons _ _ => simp at hps
            rw [hp, ← hd, depth_open]
            exact Int.one_pos⟩
      · rw [if_neg h0]
        have := openAt_extend pre '{' start level (hinv (by omega))
          (by rw [depth_open]; omega)
        rwa [depth_open] at this
    · by_cases e2 : c = '}'
      · subst e2
        rw [scan_close] at hm
        by_cases h0 : level - 1 = 0
        · rw [if_pos h0] at hm
          simp only [List.mem_singleton] at hm
          obtain ⟨a, seg, hpre, hstart, hhead, hdepth, hpos⟩ := hinv (by omega)
          have e : ((pre.length : Int) - start + 1) = ((seg.length + 1 : Nat) : Int) := by
            rw [hstart, hpre, List.length_append]
            push_cast
            omega
          rw [hm, e, hstart, substr_natCast, hB, hpre]
          have : List.take (seg.length + 1) (List.drop a.length (a ++ seg ++ '}' :: t))
              = seg ++ ['}'] := by
            simp [List.take_append_eq_append_take]
          rw [this]
          exact wellBraced_close seg hhead (by omega) hpos
        · rw [if_neg h0, ← hlen] at hm
          refine ih (pre ++ ['}']) _ _ hB2 ?_ m hm
          intro h1
          have := openAt_extend pre '}' start level (hinv (by omega))
            (by rw [depth_close]; omega)
          rwa [depth_close] at this
      · rw [scan_other B t c pre.length start level e1 e2, ← hlen] at hm
        refine ih (pre ++ [c]) _ _ hB2 ?_ m hm
        intro h1
        have := openAt_extend pre c start level (hinv h1)
          (by rw [depth_other c e1 e2]; omega)
        rwa [depth_other c e1 e2, Int.add_zero] at this

/-- The loop extracts at most one string. -/
theorem scan_passed_length (B : List Char) :
    ∀ (cs : List Char) (i : Nat) (start level : Int),
      (scan B cs i start level).passed.length ≤ 1 := by
  intro cs
  induction cs with
  | nil => intro i start level; simp [scan]
  | cons c t ih =>
    intro i start level
    by_cases e1 : c = '{'
    · subst e1; rw [scan_open]; exact ih _ _ _
    · by_cases e2 : c = '}'
      · subst e2
        rw [scan_close]
        split
        · simp
        · exact ih _ _ _
      · rw [scan_other B t c i start level e1 e2]; exact ih _ _ _

/-! ## `parse_message` -/

theorem if_member_obj {F σ : Type} (m : List (String × Json F)) (name : String) (g : σ)
    (body : Json F → σ → Option σ) :
    if_member (Json.obj m) name g body
      = match m.lookup name with
        | none => some g
        | some v => body v g := by
  unfold if_member Json.HasMember Json.member
  cases h : m.lookup name <;> simp [h]

/-- A guarded block followed by the rest of the function: an invariant `I`
established by the block carries a postcondition `Q` of the whole. -/
theorem if_member_bind_obj {F σ τ : Type} (m : List (String × Json F)) (name : String) (g : σ)
    (body : Json F → σ → Option σ) (k : σ → Option τ) (I : σ → Prop) (Q : Option τ → Prop)
    (hnone : m.lookup name = none → I g)
    (hbody : ∀ v, m.lookup name = some v → ∃ g1, body v g = some g1 ∧ I g1)
    (hk : ∀ g1, I g1 → Q (k g1)) :
    Q ((if_member (Json.obj m) name g body).bind k) := by
  rw [if_member_obj]
  cases h : m.lookup name with
  | none => exact hk g (hnone h)
  | some v =>
    obtain ⟨g1, hb, hi⟩ := hbody v h
    simp only [hb, Option.some_bind]
    exact hk g1 hi

section ParseMessage

variable {F : Type} [LinearOrderedField F]

/-- The dispatch of `parse_message` on an object with a string `class`. -/
theorem parse_message_class (E : Env F) (now : F) (message : List Char) (g : gpsd_t F)
    (m : List (String × Json F)) (s : String) (hparse : E.Parse message = Json.obj m)
    (hclass : m.lookup "class" = some (Json.str s)) :
    parse_message E now message g
      = if c_str s = "VERSION" then some (true, g)
        else if c_str s = "TPV" then
          (parse_message_TPV E now (Json.obj m) g).map fun g1 => (true, g1)
        else if c_str s = "SKY" then
          (parse_message_SKY (Json.obj m) g).map fun g1 => (true, g1)
        else some (true, g) := by
  simp [parse_message, hparse, Json.HasMember, Json.member, hclass, Json.GetString]

/-- The call of `parse_message` on an object without a `class` member. -/
theorem parse_message_no_class (E : Env F) (now : F) (message : List Char) (g : gpsd_t F)
    (m : List (String × Json F)) (hparse : E.Parse message = Json.obj m)
    (hclass : m.lookup "class" = none) :
    parse_message E now message g = some (false, g) := by
  simp [parse_message, hparse, Json.HasMember, hclass]

/-- With a `class` member present, `parse_message` never returns `false`. -/
theorem parse_message_true_of_class (E : Env F) (now : F) (message : List Char)
    (g g1 : gpsd_t F) (m : List (String × Json F)) (v : Json F) (b : Bool)
    (hparse : E.Parse message = Json.obj m) (hclass : m.lookup "class" = some v)
    (h : parse_message E now message g = some (b, g1)) : b = true := by
  simp only [parse_message, hparse, Json.HasMember, Json.member, hclass, Option.isSome_some,
    Option.some_bind, Bool.not_true, Bool.false_eq_true, if_false] at h
  cases hs : v.GetString with
  | none => simp [hs] at h
  | some c =>
    simp only [hs, Option.some_bind] at h
    split at h
    · simp at h; exact h.1
    · split at h
      · simp at h; exact h.2
      · split at h
        · simp at h; exact h.2
        · simp at h; exact h.1

omit [LinearOrderedField F] in
/-- The satellite loop counts the descriptors whose `used` is `true`. -/
theorem count_used_eq :
    ∀ (sats : List (Json F)) (n : Int), (∀ s ∈ sats, Descriptor s) →
      count_used sats n = some (n + ((sats.countP used_true : Nat) : Int)) := by
  intro sats
  induction sats with
  | nil => intro n _; simp [count_used]
  | cons s rest ih =>
    intro n h
    obtain ⟨ms, hs, hused⟩ := h s (List.mem_cons_self _ _)
    have hrest : ∀ t ∈ rest, Descriptor t := fun t ht => h t (List.mem_cons_of_mem _ ht)
    subst hs
    cases hl : ms.lookup "used" with
    | none =>
      simp [count_used, Json.HasMember, hl, ih _ hrest, used_true]
    | some v =>
      obtain ⟨b, hb⟩ := hused v hl
      subst hb
      cases b with
      | false =>
        simp [count_used, Json.HasMember, Json.member, Json.GetBool, hl, ih _ hrest, used_true]
      | true =>
        simp [count_used, Json.HasMember, Json.member, Json.GetBool, hl, ih _ hrest, used_true,
          List.countP_cons]
        omega

omit [LinearOrderedField F] in
/-- The `SKY` branch on an object whose `satellites` is an array of
descriptors. -/
theorem parse_message_SKY_array (g : gpsd_t F) (m : List (String × Json F))
    (sats : List (Json F)) (hsat : m.lookup "satellites" = some (Json.arr sats))
    (hdesc : ∀ s ∈ sats, Descriptor s) :
    parse_message_SKY (Json.obj m) g
      = some { g with
          gps_node := g.gps_node.setInt "satellites" ((sats.countP used_true : Nat) : Int) } := by
  unfold parse_message_SKY
  rw [if_member_obj, hsat]
  simp [count_used_eq sats 0 hdesc]

/-- The `TPV` branch on a typed object returns, in the state `tpv_result`. -/
theorem parse_message_TPV_eq (E : Env F) (now : F) (g : gpsd_t F)
    (m : List (String × Json F)) (htyped : TPVTyped m) :
    parse_message_TPV E now (Json.obj m) g = some (tpv_result E now m g) := by
  obtain ⟨htime, hnum, hmode⟩ := htyped
  simp only [parse_message_TPV, Option.bind_eq_bind, Option.pure_def]
  let Q : Option (gpsd_t F) → Prop := fun o => o = some (tpv_result E now m g)
  show Q _
  -- the `time` block
  refine if_member_bind_obj m "time" _ _ _
    (fun s => s = (decoded_time E m).elim g fun t2 => put_time now t2 g) Q ?_ ?_ ?_
  · intro h
    rw [show decoded_time E m = none from by simp [decoded_time, h]]
    rfl
  · intro v hv
    obtain ⟨ts, hts⟩ := htime v hv
    subst hts
    cases hs : E.strptime (c_str ts) with
    | none =>
      refine ⟨g, by simp [Json.GetString, hs], ?_⟩
      rw [show decoded_time E m = none from by simp [decoded_time, hv, Json.GetString, hs]]
      rfl
    | some tp =>
      obtain ⟨t, ptr⟩ := tp
      refine ⟨_, by simp only [Json.GetString, hs, Option.some_bind]; rfl, ?_⟩
      rw [show decoded_time E m
          = some (if ptr ≠ "" then E.timegm t + E.atof ptr else E.timegm t) from by
        simp [decoded_time, hv, Json.GetString, hs]]
      rfl
  intro g1 hg1
  refine if_member_bind_obj m "leapseconds" _ _ _
    (fun s => s = (num_member m "leapseconds").elim g1 fun x => put_leapseconds x g1) Q ?_ ?_ ?_
  · intro h
    rw [show num_member m "leapseconds" = none from by simp [num_member, h]]
    rfl
  · intro v hv
    obtain ⟨x, hx⟩ := hnum "leapseconds" (by simp) v hv
    refine ⟨_, by simp only [GetFloat, hx, Option.map_some', Option.some_bind]; rfl, ?_⟩
    rw [show num_member m "leapseconds" = some x from by simp [num_member, hv, hx]]
    rfl
  intro g2 hg2
  refine if_member_bind_obj m "lat" _ _ _
    (fun s => s = (num_member m "lat").elim g2 fun x => put_double "latitude_deg" x g2) Q ?_ ?_ ?_
  · intro h
    rw [show num_member m "lat" = none from by simp [num_member, h]]
    rfl
  · intro v hv
    obtain ⟨x, hx⟩ := hnum "lat" (by simp) v hv
    refine ⟨_, by simp only [GetFloat, hx, Option.map_some', Option.some_bind]; rfl, ?_⟩
    rw [show num_member m "lat" = some x from by simp [num_member, hv, hx]]
    rfl
  intro g3 hg3
  refine if_member_bind_obj m "lon" _ _ _
    (fun s => s = (num_member m "lon").elim g3 fun x => put_double "longitude_deg" x g3) Q ?_ ?_ ?_
  · intro h
    rw [show num_member m "lon" = none from by simp [num_member, h]]
    rfl
  · intro v hv
    obtain ⟨x, hx⟩ := hnum "lon" (by simp) v hv
    refine ⟨_, by simp only [GetFloat, hx, Option.map_some', Option.some_bind]; rfl, ?_⟩
    rw [show num_member m "lon" = some x from by simp [num_member, hv, hx]]
    rfl
  intro g4 hg4
  refine if_member_bind_obj m "alt" _ _ _
    (fun s => s = (num_member m "alt").elim g4 fun x => put_double "altitude_m" (E.to_float x) g4) Q ?_ ?_ ?_
  · intro h
    rw [show num_member m "alt" = none from by simp [num_member, h]]
    rfl
  · intro v hv
    obtain ⟨x, hx⟩ := hnum "alt" (by simp) v hv
    refine ⟨_, by simp only [GetFloat, hx, Option.map_some', Option.some_bind]; rfl, ?_⟩
    rw [show num_member m "alt" = some x from by simp [num_member, hv, hx]]
    rfl
  intro g5 hg5
  -- `course_deg` and `speed_mps`
  refine if_member_bind_obj m "track" _ _ _
    (fun c => c = (num_member m "track").elim 0 E.to_float) Q ?_ ?_ ?_
  · intro h
    rw [show num_member m "track" = none from by simp [num_member, h]]
    rfl
  · intro v hv
    obtain ⟨x, hx⟩ := hnum "track" (by simp) v hv
    refine ⟨E.to_float x, by simp only [GetFloat, hx, Option.map_some'], ?_⟩
    rw [show num_member m "track" = some x from by simp [num_member, hv, hx]]
    rfl
  intro course_deg hcourse
  refine if_member_bind_obj m "speed" _ _ _
    (fun c => c = (num_member m "speed").elim 0 E.to_float) Q ?_ ?_ ?_
  · intro h
    rw [show num_member m "speed" = none from by simp [num_member, h]]
    rfl
  · intro v hv
    obtain ⟨x, hx⟩ := hnum "speed" (by simp) v hv
    refine ⟨E.to_float x, by simp only [GetFloat, hx, Option.map_some'], ?_⟩
    rw [show num_member m "speed" = some x from by simp [num_member, hv, hx]]
    rfl
  intro speed_mps hspeed
  -- `vn_mps`, `ve_mps` and the `climb` block
  obtain ⟨g6, hg6⟩ : ∃ g6, g6 = put_double "ve_mps"
      (E.to_float (E.cos (E.to_float ((90 - course_deg) * E.M_PI / 180)) * speed_mps))
      (put_double "vn_mps"
        (E.to_float (E.sin (E.to_float ((90 - course_deg) * E.M_PI / 180)) * speed_mps))
        g5) := ⟨_, rfl⟩
  refine if_member_bind_obj m "climb" _ _ _
    (fun s => s = (num_member m "climb").elim g6
      fun x => put_double "vd_mps" (-(E.to_float x)) g6) Q ?_ ?_ ?_
  · intro h
    rw [show num_member m "climb" = none from by simp [num_member, h], hg6]
    rfl
  · intro v hv
    obtain ⟨x, hx⟩ := hnum "climb" (by simp) v hv
    refine ⟨_, by simp only [GetFloat, hx, Option.map_some', Option.some_bind]; rfl, ?_⟩
    rw [show num_member m "climb" = some x from by simp [num_member, hv, hx], hg6]
    rfl
  intro g7 hg7
  -- the `mode` block
  refine if_member_bind_obj m "mode" _ _ _
    (fun s => s = ((m.lookup "mode").bind Json.GetInt).elim g7
      fun i => put_int "fixType" i g7) Q ?_ ?_ ?_
  · intro h
    rw [h]
    rfl
  · intro v hv
    obtain ⟨x, hx⟩ := hmode v hv
    refine ⟨_, by simp only [hx, Option.some_bind]; rfl, ?_⟩
    rw [hv, Option.some_bind, hx]
    rfl
  intro g8 hg8
  subst hg8 hg7 hg6 hspeed hcourse hg5 hg4 hg3 hg2 hg1
  rfl

omit [LinearOrderedField F] in
/-- An optional update that does not touch the field `k`. -/
theorem elim_frame {α : Type} (o : Option α) (g : gpsd_t F) (f : α → gpsd_t F) (k : String)
    (h : ∀ x, (f x).gps_node k = g.gps_node k) :
    (o.elim g f).gps_node k = g.gps_node k := by
  cases o with
  | none => rfl
  | some x => exact h x

/-- The blocks after the `time` block leave `timestamp` and `unix_time_sec`
alone. -/
theorem tpv_result_time (E : Env F) (now : F) (m : List (String × Json F)) (g : gpsd_t F)
    (k : String) (hk : k = "timestamp" ∨ k = "unix_time_sec") :
    (tpv_result E now m g).gps_node k
      = ((decoded_time E m).elim g fun t2 => put_time now t2 g).gps_node k := by
  unfold tpv_result
  dsimp only
  rcases hk with rfl | rfl
  all_goals
    rw [elim_frame _ _ _ _ (fun x => by simp [put_int, PropertyNode.setInt]),
      elim_frame _ _ _ _ (fun x => by simp [put_double, PropertyNode.setDouble])]
    simp only [put_double, PropertyNode.setDouble, String.reduceEq, if_false]
    rw [elim_frame _ _ _ _ (fun x => by simp [put_double, PropertyNode.setDouble]),
      elim_frame _ _ _ _ (fun x => by simp [put_double, PropertyNode.setDouble]),
      elim_frame _ _ _ _ (fun x => by simp [put_double, PropertyNode.setDouble]),
      elim_frame _ _ _ _ (fun x => by simp [put_leapseconds, PropertyNode.setDouble])]

/-- The typed sample `TPV` object. -/
theorem tpv_members_typed : TPVTyped (tpv_members F) := by
  refine ⟨fun v hv => absurd hv (by simp [tpv_members, List.lookup]), ?_,
    fun v hv => ⟨3, by rw [← Option.some.inj hv]; rfl⟩⟩
  intro k hk v hv
  simp only [List.mem_cons, List.mem_singleton, List.not_mem_nil, or_false] at hk
  rcases hk with rfl | rfl | rfl | rfl | rfl | rfl | rfl
  · exact absurd hv (by simp [tpv_members, List.lookup])
  · exact ⟨45, by rw [← Option.some.inj hv]; rfl⟩
  · exact ⟨-122, by rw [← Option.some.inj hv]; rfl⟩
  · exact ⟨100, by rw [← Option.some.inj hv]; rfl⟩
  · exact ⟨90, by rw [← Option.some.inj hv]; rfl⟩
  · exact ⟨10, by rw [← Option.some.inj hv]; rfl⟩
  · exact ⟨-1, by rw [← Option.some.inj hv]; rfl⟩

/-- The typed sample `TPV` object with a `time`. -/
theorem tpv_time_members_typed : TPVTyped (tpv_time_members F) := by
  refine ⟨fun v hv => ⟨_, (Option.some.inj hv).symm⟩, ?_,
    fun v hv => ⟨3, by rw [← Option.some.inj hv]; rfl⟩⟩
  intro k hk v hv
  simp only [List.mem_cons, List.mem_singleton, List.not_mem_nil, or_false] at hk
  rcases hk with rfl | rfl | rfl | rfl | rfl | rfl | rfl <;>
    exact absurd hv (by simp [tpv_time_members, List.lookup])

omit [LinearOrderedField F] in
/-- The `SKY` branch returns and writes at most the field `satellites`. -/
theorem parse_message_SKY_frame (g : gpsd_t F) (m : List (String × Json F))
    (hdesc : ∀ sats, m.lookup "satellites" = some (Json.arr sats) → ∀ s ∈ sats, Descriptor s) :
    ∃ g1, parse_message_SKY (Json.obj m) g = some g1 ∧
      ∀ k, k ≠ "satellites" → g1.gps_node k = g.gps_node k := by
  unfold parse_message_SKY
  rw [if_member_obj]
  cases hl : m.lookup "satellites" with
  | none => exact ⟨g, rfl, fun _ _ => rfl⟩
  | some v =>
    have hset : ∀ n : Int, ∀ k, k ≠ "satellites" →
        (g.gps_node.setInt "satellites" n) k = g.gps_node k := by
      intro n k hk
      simp [PropertyNode.setInt, hk]
    cases v with
    | arr sats =>
      refine ⟨{ g with gps_node :=
          g.gps_node.setInt "satellites" ((sats.countP used_true : Nat) : Int) }, ?_,
        hset ((sats.countP used_true : Nat) : Int)⟩
      simp [count_used_eq sats 0 (hdesc sats hl)]
    | null => exact ⟨_, rfl, hset 0⟩
    | bool b => exact ⟨_, rfl, hset 0⟩
    | int i => exact ⟨_, rfl, hset 0⟩
    | real x => exact ⟨_, rfl, hset 0⟩
    | str s => exact ⟨_, rfl, hset 0⟩
    | obj ms => exact ⟨_, rfl, hset 0⟩

end ParseMessage

/-! ## Properties of `process_buffer` -/

/-- C3, single extraction: on a buffer `noise ++ obj ++ rest` longer than 2
bytes, with brace-free `noise`, brace-balanced `obj` and `rest` of at most
16384 bytes, `process_buffer` passes exactly `obj` to `parse_message`, once,
leaves `rest` in the buffer and returns `false`. -/
theorem single_extraction (noise obj rest : List Char)
    (hlen : 2 < (noise ++ obj ++ rest).length) (hn : BraceFree noise) (ho : Balanced obj)
    (hrest : rest.length ≤ 16384) :
    process_buffer (noise ++ obj ++ rest) = ⟨[obj], rest, false⟩ := by
  rw [process_buffer_extract noise obj rest hlen hn ho, if_neg (by omega)]

theorem single_extraction_witness :
    process_buffer ("\r\n".toList ++ "\x7b\"class\":\"VERSION\"\x7d".toList ++ "\r\n\x7b\"cl".toList)
      = ⟨["\x7b\"class\":\"VERSION\"\x7d".toList], "\r\n\x7b\"cl".toList, false⟩ :=
  single_extraction _ _ _ (by decide) (by decide) (by decide) (by decide)

/-- C6, no complete object, no extraction: on a buffer of at most 16384
bytes in which no closing brace brings the depth back to zero,
`process_buffer` passes nothing to `parse_message`, leaves the buffer
unchanged and returns `false`. -/
theorem no_complete_object_no_extraction (buf : List Char) (hlen : buf.length ≤ 16384)
    (h : NeverCloses buf) :
    process_buffer buf = ⟨[], buf, false⟩ := by
  rw [process_buffer_none buf (neverCloses_append h), if_neg (by omega)]

theorem no_complete_object_no_extraction_witness :
    process_buffer "\r\n\x7b\"class\":\"TPV\",\"m".toList
      = ⟨[], "\r\n\x7b\"class\":\"TPV\",\"m".toList, false⟩ :=
  no_complete_object_no_extraction _ (by decide) (by decide)

/-- C2, bounded buffer: after `process_buffer` the buffer holds at most 16384
bytes; and a buffer of more than 16384 bytes without a closing brace is
cleared, with result `true`. -/
theorem bounded_buffer (buf : List Char) :
    (process_buffer buf).buffer.length ≤ 16384 ∧
      (16384 < buf.length → '}' ∉ buf →
        (process_buffer buf).buffer = [] ∧ (process_buffer buf).ret = true) := by
  constructor
  · unfold process_buffer
    split
    · simp only; omega
    · simp only
      split
      · simp
      · simp only; omega
  · intro hlen hno
    have hnone : ∀ p s, buf = p ++ '}' :: s → depth (p ++ ['}']) ≠ 0 := by
      intro p s hps
      exact absurd (by rw [hps]; simp) hno
    rw [process_buffer_none buf hnone, if_pos hlen]
    exact ⟨rfl, rfl⟩

theorem bounded_buffer_witness :
    16384 < (List.replicate 16385 'x').length ∧ '}' ∉ List.replicate 16385 'x' ∧
      (process_buffer (List.replicate 16385 'x')).buffer = [] ∧
      (process_buffer (List.replicate 16385 'x')).ret = true :=
  have h1 : 16384 < (List.replicate 16385 'x').length := by
    rw [List.length_replicate]; exact Nat.lt_succ_self _
  have h2 : '}' ∉ List.replicate 16385 'x' :=
    fun h => absurd (List.eq_of_mem_replicate h) (by decide)
  ⟨h1, h2, (bounded_buffer (List.replicate 16385 'x')).2 h1 h2⟩

/-- C10, shape of every extracted message: whatever the buffer holds, one
call of `process_buffer` passes at most one string to `parse_message`, and a
string it passes opens with `{`, closes with `}`, holds as many `{` as `}`,
and each of its non-empty proper prefixes holds strictly more `{` than `}`. -/
theorem extracted_message_shape (buf : List Char) :
    (process_buffer buf).passed.length ≤ 1 ∧
      ∀ m ∈ (process_buffer buf).passed, WellBraced m := by
  unfold process_buffer
  split
  · simp
  · have h1 := scan_passed_length buf buf 0 0 0
    have h2 := scan_wellBraced buf buf [] 0 0 rfl (by intro h; omega)
    simp only [List.length_nil, Nat.cast_zero] at h2
    dsimp only
    split <;> exact ⟨h1, h2⟩

theorem extracted_message_shape_witness :
    "\x7b\x7b\x7d\x7d".toList ∈ (process_buffer "\x7d\x7b\x7b\x7b\x7d\x7d".toList).passed ∧
      WellBraced "\x7b\x7b\x7d\x7d".toList :=
  have h : "\x7b\x7b\x7d\x7d".toList ∈ (process_buffer "\x7d\x7b\x7b\x7b\x7d\x7d".toList).passed := by
    decide
  ⟨h, (extracted_message_shape "\x7d\x7b\x7b\x7b\x7d\x7d".toList).2 _ h⟩

/-- C1 fails as stated: the one-object buffer `{}` is not handed over at all
(the call returns at once on a buffer of at most 2 bytes), and after the only
object of `{"class":"SKY"}` followed by a line end has been handed over the
buffer still holds the line end. -/
theorem demarcation_ordering_counterexample :
    process_n 1 "\x7b\x7d".toList = ([[]], "\x7b\x7d".toList) ∧
      process_n 1 "\x7b\"class\":\"SKY\"\x7d\r\n".toList
        = ([["\x7b\"class\":\"SKY\"\x7d".toList]], "\r\n".toList) := by
  constructor <;> decide

/-- C1, demarcation ordering, amended: for a buffer made of `N` brace-free
noise texts each followed by a brace-balanced object, and then `tail`, such
that every one of the `N` calls finds more than 2 bytes in the buffer and at
most 16384 bytes remain after each extraction, `N` successive calls of
`process_buffer` hand the `N` objects to `parse_message` in their original
order, one per call, and the buffer afterwards is `tail`. -/
theorem demarcation_ordering_amended (segs : List (List Char × List Char))
    (tail : List Char) (hsegs : ∀ s ∈ segs, BraceFree s.1 ∧ Balanced s.2)
    (hlen : ∀ k, k < segs.length → 2 < (stream (segs.drop k) tail).length)
    (hcap : ∀ k, k < segs.length → (stream (segs.drop (k + 1)) tail).length ≤ 16384) :
    process_n segs.length (stream segs tail) = (segs.map (fun s => [s.2]), tail) := by
  induction segs with
  | nil => rfl
  | cons s segs ih =>
    have h0 : 2 < (s.1 ++ s.2 ++ stream segs tail).length := hlen 0 (by simp)
    have h1 : (stream segs tail).length ≤ 16384 := hcap 0 (by simp)
    obtain ⟨hn, ho⟩ := hsegs s (List.mem_cons_self _ _)
    have hpb : process_buffer (s.1 ++ s.2 ++ stream segs tail)
        = ⟨[s.2], stream segs tail, false⟩ := by
      rw [process_buffer_extract _ _ _ h0 hn ho, if_neg (by omega)]
    have hrec := ih (fun t ht => hsegs t (List.mem_cons_of_mem _ ht))
      (fun k hk => by
        have := hlen (k + 1) (by simp only [List.length_cons]; omega)
        simpa using this)
      (fun k hk => by
        have := hcap (k + 1) (by simp only [List.length_cons]; omega)
        simpa using this)
    simp only [List.length_cons, process_n, stream, hpb, hrec, List.map_cons]

theorem demarcation_ordering_amended_witness :
    process_n 2
        (stream [("\r\n".toList, "\x7b\"class\":\"VERSION\"\x7d".toList),
          ("\r\n".toList, "\x7b\"class\":\"SKY\",\"satellites\":[\x7b\"used\":true\x7d]\x7d".toList)]
          "\r\n".toList)
      = ([["\x7b\"class\":\"VERSION\"\x7d".toList],
          ["\x7b\"class\":\"SKY\",\"satellites\":[\x7b\"used\":true\x7d]\x7d".toList]],
        "\r\n".toList) :=
  demarcation_ordering_amended
    [("\r\n".toList, "\x7b\"class\":\"VERSION\"\x7d".toList),
      ("\r\n".toList, "\x7b\"class\":\"SKY\",\"satellites\":[\x7b\"used\":true\x7d]\x7d".toList)]
    "\r\n".toList (by decide) (by decide) (by decide)

/-! ## Properties of `parse_message` and `read` -/

/-- C7 fails as stated: the `class` value `TPV`, NUL, `x` is none of `TPV`
and `SKY`, yet the `std::string` built from it is `TPV`, the `TPV` branch
runs and `latitude_deg` is written; and on a `class` that is a number
`GetString()` fails its assertion, so nothing is returned. -/
theorem unrecognized_class_counterexample :
    "TPV\x00x" ≠ "TPV" ∧ "TPV\x00x" ≠ "SKY" ∧ c_str "TPV\x00x" = "TPV" ∧
    (sample_gpsd ℚ).gps_node "latitude_deg" = none ∧
    (parse_message
        (sample_env ℚ nul_class_text (Json.obj (nul_class_members ℚ)) (fun _ => 0)
          (fun _ => 1) 3) 1000 nul_class_text (sample_gpsd ℚ)).map
        (fun r => (r.1, r.2.gps_node "latitude_deg"))
      = some (true, some (PropVal.double (3 / 2))) ∧
    parse_message
        (sample_env ℚ number_class_text (Json.obj (number_class_members ℚ)) (fun _ => 0)
          (fun _ => 1) 3) 1000 number_class_text (sample_gpsd ℚ)
      = none :=
  ⟨by decide, by decide, by decide, rfl, rfl, rfl⟩

/-- C7, unrecognized classes are ignored, amended: on an object whose
`class` is a string that, cut at its first NUL character, is neither `TPV`
nor `SKY`, `parse_message` returns `true` and leaves the driver state, so
every field of the gps record, unchanged; on an object without `class` it
returns `false` and leaves the state unchanged; and it returns `false` only
then. -/
theorem unrecognized_class_ignored_amended {F : Type} [LinearOrderedField F] (E : Env F)
    (now : F) (message : List Char) (g : gpsd_t F) (m : List (String × Json F))
    (hparse : E.Parse message = Json.obj m) :
    (∀ s, m.lookup "class" = some (Json.str s) → c_str s ≠ "TPV" → c_str s ≠ "SKY" →
        parse_message E now message g = some (true, g)) ∧
      (m.lookup "class" = none → parse_message E now message g = some (false, g)) ∧
      (∀ g1, parse_message E now message g = some (false, g1) → m.lookup "class" = none) := by
  refine ⟨?_, ?_, ?_⟩
  · intro c hclass h1 h2
    rw [parse_message_class E now message g m c hparse hclass, if_neg h1, if_neg h2]
    simp
  · exact parse_message_no_class E now message g m hparse
  · intro g1 h
    cases hl : m.lookup "class" with
    | none => rfl
    | some v =>
      have := parse_message_true_of_class E now message g g1 m v false hparse hl h
      exact absurd this (by decide)

theorem unrecognized_class_ignored_amended_witness :
    parse_message (sample_env ℚ devices_text (devices_doc ℚ) (fun _ => 0) (fun _ => 1) 3) 1000
        devices_text (sample_gpsd ℚ)
      = some (true, sample_gpsd ℚ) :=
  (unrecognized_class_ignored_amended _ 1000 devices_text (sample_gpsd ℚ)
    [("class", Json.str "DEVICES"), ("devices", Json.arr [])] rfl).1 "DEVICES" rfl
    (by decide) (by decide)

/-- C5, SKY satellite count: on a `SKY` object whose `satellites` member is
an array of satellite descriptors, `parse_message` returns `true` and writes
into `satellites` the number of array elements that have a `used` member
equal to `true`; nothing else of the driver state changes. -/
theorem sky_satellite_count {F : Type} [LinearOrderedField F] (E : Env F) (now : F)
    (message : List Char) (g : gpsd_t F) (m : List (String × Json F)) (sats : List (Json F))
    (hparse : E.Parse message = Json.obj m)
    (hclass : m.lookup "class" = some (Json.str "SKY"))
    (hsat : m.lookup "satellites" = some (Json.arr sats))
    (hdesc : ∀ s ∈ sats, Descriptor s) :
    parse_message E now message g
      = some (true, { g with
          gps_node := g.gps_node.setInt "satellites" ((sats.countP used_true : Nat) : Int) }) := by
  rw [parse_message_class E now message g m "SKY" hparse hclass, if_neg (by decide),
    if_neg (by decide), if_pos (by decide), parse_message_SKY_array g m sats hsat hdesc]
  rfl

theorem sky_satellite_count_witness :
    parse_message (sample_env ℚ sky_text (sky_doc ℚ) (fun _ => 0) (fun _ => 1) 3) 1000
        sky_text (sample_gpsd ℚ)
      = some (true, { sample_gpsd ℚ with
          gps_node := (sample_gpsd ℚ).gps_node.setInt "satellites" 2 }) :=
  sky_satellite_count _ 1000 sky_text (sample_gpsd ℚ)
    [("class", Json.str "SKY"),
      ("satellites", Json.arr [
        Json.obj [("PRN", Json.int 3), ("used", Json.bool true)],
        Json.obj [("PRN", Json.int 7), ("used", Json.bool false)],
        Json.obj [("PRN", Json.int 9), ("used", Json.bool true)]])]
    [Json.obj [("PRN", Json.int 3), ("used", Json.bool true)],
      Json.obj [("PRN", Json.int 7), ("used", Json.bool false)],
      Json.obj [("PRN", Json.int 9), ("used", Json.bool true)]]
    rfl rfl rfl
    (by
      intro s hs
      simp only [List.mem_cons, List.mem_singleton, List.not_mem_nil, or_false] at hs
      rcases hs with rfl | rfl | rfl
      · exact ⟨_, rfl, fun v hv => ⟨true, (Option.some.inj hv).symm⟩⟩
      · exact ⟨_, rfl, fun v hv => ⟨false, (Option.some.inj hv).symm⟩⟩
      · exact ⟨_, rfl, fun v hv => ⟨true, (Option.some.inj hv).symm⟩⟩)

/-- The `TPV` mapping over exact real arithmetic. -/
theorem parse_message_TPV_exact (E : Env ℝ) (now : ℝ) (message : List Char) (g : gpsd_t ℝ)
    (m : List (String × Json ℝ)) (track speed climb : ℝ) (mode : Int)
    (hE : ExactReal E) (hparse : E.Parse message = Json.obj m)
    (hclass : m.lookup "class" = some (Json.str "TPV")) (htyped : TPVTyped m)
    (htrack : num_member m "track" = some track)
    (hspeed : num_member m "speed" = some speed)
    (hclimb : num_member m "climb" = some climb)
    (hmode : (m.lookup "mode").bind Json.GetInt = some mode) :
    ∃ g1, parse_message E now message g = some (true, g1) ∧
      g1.gps_node "vn_mps"
        = some (PropVal.double (Real.sin ((90 - track) * Real.pi / 180) * speed)) ∧
      g1.gps_node "ve_mps"
        = some (PropVal.double (Real.cos ((90 - track) * Real.pi / 180) * speed)) ∧
      g1.gps_node "vd_mps" = some (PropVal.double (-climb)) ∧
      g1.gps_node "fixType" = some (PropVal.int mode) ∧
      (∀ lat, num_member m "lat" = some lat →
        g1.gps_node "latitude_deg" = some (PropVal.double lat)) ∧
      (∀ lon, num_member m "lon" = some lon →
        g1.gps_node "longitude_deg" = some (PropVal.double lon)) ∧
      (∀ alt, num_member m "alt" = some alt →
        g1.gps_node "altitude_m" = some (PropVal.double alt)) := by
  obtain ⟨hsin, hcos, hpi, hfl⟩ := hE
  refine ⟨tpv_result E now m g, ?_, ?_, ?_, ?_, ?_, ?_, ?_, ?_⟩
  · rw [parse_message_class E now message g m "TPV" hparse hclass, if_neg (by decide),
      if_pos (by decide), parse_message_TPV_eq E now g m htyped]
    rfl
  · simp [tpv_result, htrack, hspeed, hclimb, hmode, put_double, put_int,
      PropertyNode.setDouble, PropertyNode.setInt, hsin, hpi, hfl]
  · simp [tpv_result, htrack, hspeed, hclimb, hmode, put_double, put_int,
      PropertyNode.setDouble, PropertyNode.setInt, hcos, hpi, hfl]
  · simp [tpv_result, htrack, hspeed, hclimb, hmode, put_double, put_int,
      PropertyNode.setDouble, PropertyNode.setInt, hfl]
  · simp [tpv_result, htrack, hspeed, hclimb, hmode, put_double, put_int,
      PropertyNode.setDouble, PropertyNode.setInt]
  · intro lat hlat
    cases hlon : num_member m "lon" <;> cases halt : num_member m "alt" <;>
      simp [tpv_result, hlat, hlon, halt, htrack, hspeed, hclimb, hmode, put_double, put_int,
        PropertyNode.setDouble, PropertyNode.setInt]
  · intro lon hlon
    cases halt : num_member m "alt" <;>
      simp [tpv_result, hlon, halt, htrack, hspeed, hclimb, hmode, put_double, put_int,
        PropertyNode.setDouble, PropertyNode.setInt]
  · intro alt halt
    simp [tpv_result, halt, htrack, hspeed, hclimb, hmode, put_double, put_int,
      PropertyNode.setDouble, PropertyNode.setInt, hfl]

/-- C4, TPV velocity and fix mapping, over exact real arithmetic: on a typed
`TPV` object carrying `track`, `speed`, `climb` and `mode`, `parse_message`
returns `true` and publishes `vn_mps = sin(a) * speed` and
`ve_mps = cos(a) * speed` with `a = (90 - track) * pi / 180`,
`vd_mps = -climb`, `fixType = mode`, and the `lat`, `lon`, `alt` it carries
unchanged as `latitude_deg`, `longitude_deg`, `altitude_m`; in particular
the object `lat=45, lon=-122, alt=100, track=90, speed=10, climb=-1, mode=3`
yields `vn_mps = 0`, `ve_mps = 10`, `vd_mps = 1`, `fixType = 3`. -/
theorem tpv_velocity_fix_mapping :
    (∀ (E : Env ℝ) (now : ℝ) (message : List Char) (g : gpsd_t ℝ)
        (m : List (String × Json ℝ)) (track speed climb : ℝ) (mode : Int),
        ExactReal E → E.Parse message = Json.obj m →
        m.lookup "class" = some (Json.str "TPV") → TPVTyped m →
        num_member m "track" = some track →
        num_member m "speed" = some speed →
        num_member m "climb" = some climb →
        (m.lookup "mode").bind Json.GetInt = some mode →
        ∃ g1, parse_message E now message g = some (true, g1) ∧
          g1.gps_node "vn_mps"
            = some (PropVal.double (Real.sin ((90 - track) * Real.pi / 180) * speed)) ∧
          g1.gps_node "ve_mps"
            = some (PropVal.double (Real.cos ((90 - track) * Real.pi / 180) * speed)) ∧
          g1.gps_node "vd_mps" = some (PropVal.double (-climb)) ∧
          g1.gps_node "fixType" = some (PropVal.int mode) ∧
          (∀ lat, num_member m "lat" = some lat →
            g1.gps_node "latitude_deg" = some (PropVal.double lat)) ∧
          (∀ lon, num_member m "lon" = some lon →
            g1.gps_node "longitude_deg" = some (PropVal.double lon)) ∧
          (∀ alt, num_member m "alt" = some alt →
            g1.gps_node "altitude_m" = some (PropVal.double alt))) ∧
      (∀ (E : Env ℝ) (now : ℝ) (message : List Char) (g : gpsd_t ℝ),
        ExactReal E → E.Parse message = tpv_example ℝ →
        ∃ g1, parse_message E now message g = some (true, g1) ∧
          g1.gps_node "vn_mps" = some (PropVal.double 0) ∧
          g1.gps_node "ve_mps" = some (PropVal.double 10) ∧
          g1.gps_node "vd_mps" = some (PropVal.double 1) ∧
          g1.gps_node "fixType" = some (PropVal.int 3) ∧
          g1.gps_node "latitude_deg" = some (PropVal.double 45) ∧
          g1.gps_node "longitude_deg" = some (PropVal.double (-122)) ∧
          g1.gps_node "altitude_m" = some (PropVal.double 100)) := by
  constructor
  · intro E now message g m track speed climb mode hE hparse hclass htyped htrack hspeed
      hclimb hmode
    exact parse_message_TPV_exact E now message g m track speed climb mode hE hparse hclass
      htyped htrack hspeed hclimb hmode
  · intro E now message g hE hparse
    obtain ⟨g1, h, hvn, hve, hvd, hfix, hla, hlo, hal⟩ :=
      parse_message_TPV_exact E now message g (tpv_members ℝ) 90 10 (-1) 3 hE hparse rfl
        tpv_members_typed rfl rfl rfl rfl
    refine ⟨g1, h, ?_, ?_, ?_, hfix, hla 45 rfl, hlo (-122) rfl, hal 100 rfl⟩
    · rw [hvn]; simp
    · rw [hve]; simp
    · rw [hvd]; simp

theorem tpv_velocity_fix_mapping_witness :
    ∃ g1, parse_message (sample_env ℝ tpv_text (tpv_example ℝ) Real.sin Real.cos Real.pi) 1000
          tpv_text (sample_gpsd ℝ) = some (true, g1) ∧
      g1.gps_node "vn_mps"
        = some (PropVal.double (Real.sin ((90 - 90) * Real.pi / 180) * 10)) ∧
      g1.gps_node "ve_mps"
        = some (PropVal.double (Real.cos ((90 - 90) * Real.pi / 180) * 10)) ∧
      g1.gps_node "vd_mps" = some (PropVal.double (-(-1))) ∧
      g1.gps_node "fixType" = some (PropVal.int 3) ∧
      (∀ lat, num_member (tpv_members ℝ) "lat" = some lat →
        g1.gps_node "latitude_deg" = some (PropVal.double lat)) ∧
      (∀ lon, num_member (tpv_members ℝ) "lon" = some lon →
        g1.gps_node "longitude_deg" = some (PropVal.double lon)) ∧
      (∀ alt, num_member (tpv_members ℝ) "alt" = some alt →
        g1.gps_node "altitude_m" = some (PropVal.double alt)) :=
  tpv_velocity_fix_mapping.1 (sample_env ℝ tpv_text (tpv_example ℝ) Real.sin Real.cos Real.pi)
    1000 tpv_text (sample_gpsd ℝ) (tpv_members ℝ) 90 10 (-1) 3 ⟨rfl, rfl, rfl, rfl⟩ rfl rfl
    tpv_members_typed rfl rfl rfl rfl

/-- C8 fails as stated: a `SKY` report updates the record (`satellites`) and
a `TPV` report without `time` updates it (`latitude_deg`), and neither stamps
`timestamp`, which stays unset although the host clock reads 1000. -/
theorem timestamping_counterexample :
    (parse_message (sample_env ℚ sky_text (sky_doc ℚ) (fun _ => 0) (fun _ => 1) 3) 1000
        sky_text (sample_gpsd ℚ)).map
        (fun r => (r.1, r.2.gps_node "satellites", r.2.gps_node "timestamp"))
      = some (true, some (PropVal.int 2), none) ∧
    (parse_message (sample_env ℚ tpv_text (tpv_example ℚ) (fun _ => 0) (fun _ => 1) 3) 1000
        tpv_text (sample_gpsd ℚ)).map
        (fun r => (r.1, r.2.gps_node "latitude_deg", r.2.gps_node "timestamp"))
      = some (true, some (PropVal.double 45), none) := by
  constructor <;> rfl

/-- C8, timestamping, amended: `parse_message` stamps `timestamp` with the
host clock reading exactly when it decodes a `TPV` object whose `time` member
`strptime` accepts, and it then also writes the device time into
`unix_time_sec`; a `TPV` object without such a `time` and every `SKY` object
leave `timestamp` and `unix_time_sec` as they were.  In each case
`parse_message` returns `true`. -/
theorem timestamping_amended {F : Type} [LinearOrderedField F] (E : Env F) (now : F)
    (message : List Char) (g : gpsd_t F) (m : List (String × Json F))
    (hparse : E.Parse message = Json.obj m) :
    (m.lookup "class" = some (Json.str "TPV") → TPVTyped m →
      ∃ g1, parse_message E now message g = some (true, g1) ∧
        g1.gps_node "timestamp"
          = (match decoded_time E m with
            | some _ => some (PropVal.double now)
            | none => g.gps_node "timestamp") ∧
        g1.gps_node "unix_time_sec"
          = (match decoded_time E m with
            | some t2 => some (PropVal.double t2)
            | none => g.gps_node "unix_time_sec")) ∧
    (m.lookup "class" = some (Json.str "SKY") →
      (∀ sats, m.lookup "satellites" = some (Json.arr sats) → ∀ s ∈ sats, Descriptor s) →
      ∃ g1, parse_message E now message g = some (true, g1) ∧
        g1.gps_node "timestamp" = g.gps_node "timestamp" ∧
        g1.gps_node "unix_time_sec" = g.gps_node "unix_time_sec") := by
  constructor
  · intro hclass htyped
    refine ⟨tpv_result E now m g, ?_, ?_, ?_⟩
    · rw [parse_message_class E now message g m "TPV" hparse hclass, if_neg (by decide),
        if_pos (by decide), parse_message_TPV_eq E now g m htyped]
      rfl
    · rw [tpv_result_time E now m g "timestamp" (Or.inl rfl)]
      cases decoded_time E m <;> simp [put_time, PropertyNode.setDouble]
    · rw [tpv_result_time E now m g "unix_time_sec" (Or.inr rfl)]
      cases decoded_time E m <;> simp [put_time, PropertyNode.setDouble]
  · intro hclass hdesc
    obtain ⟨g1, h, hframe⟩ := parse_message_SKY_frame g m hdesc
    refine ⟨g1, ?_, hframe _ (by decide), hframe _ (by decide)⟩
    rw [parse_message_class E now message g m "SKY" hparse hclass, if_neg (by decide),
      if_neg (by decide), if_pos (by decide), h]
    rfl

theorem timestamping_amended_witness :
    ∃ g1, parse_message
          (sample_env ℚ tpv_time_text (tpv_time_doc ℚ) (fun _ => 0) (fun _ => 1) 3) 1000
          tpv_time_text (sample_gpsd ℚ) = some (true, g1) ∧
      g1.gps_node "timestamp" = some (PropVal.double 1000) ∧
      g1.gps_node "unix_time_sec" = some (PropVal.double (1714564800 + 1 / 4)) :=
  (timestamping_amended
    (sample_env ℚ tpv_time_text (tpv_time_doc ℚ) (fun _ => 0) (fun _ => 1) 3) 1000
    tpv_time_text (sample_gpsd ℚ) (tpv_time_members ℚ) rfl).1 rfl tpv_time_members_typed

/-- The probe comparisons in the sample cycle that receives a `SKY` report
at host time 1000, the record having been stamped at host time 10. -/
theorem sky_cycle_probe :
    (sample_cycle ℚ 1000 [sky_text]).t_probe1
        > PropertyNode.getDouble
            ((stamped_gpsd ℚ).gps_node.setInt "satellites" 2) "timestamp" + 5 ∧
      (sample_cycle ℚ 1000 [sky_text]).t_probe2 > (stamped_gpsd ℚ).last_init_time + 5 := by
  constructor
  · show (10 : ℚ) + 5 < 1000
    norm_num
  · show (0 : ℚ) + 5 < 1000
    norm_num

/-- The sample cycle that receives a `SKY` report, evaluated. -/
theorem read_sky_cycle :
    read (sample_env ℚ sky_text (sky_doc ℚ) (fun _ => 0) (fun _ => 1) 3)
        (sample_cycle ℚ 1000 [sky_text]) (stamped_gpsd ℚ)
      = some { stamped_gpsd ℚ with
          gps_node := (stamped_gpsd ℚ).gps_node.setInt "satellites" 2
          send_init_calls := 1
          last_init_time := 1000 } := by
  have hbuf : read_buffer (sample_env ℚ sky_text (sky_doc ℚ) (fun _ => 0) (fun _ => 1) 3)
      (sample_cycle ℚ 1000 [sky_text]) (stamped_gpsd ℚ)
      = some { stamped_gpsd ℚ with
          gps_node := (stamped_gpsd ℚ).gps_node.setInt "satellites" 2 } := rfl
  unfold read
  rw [hbuf]
  simp only [Option.some_bind]
  rw [if_pos sky_cycle_probe]
  rfl

/-- C9 fails as stated: the record was stamped at host time 10; in a cycle
at host time 1000 a `SKY` report is received and parsed (`satellites`
becomes 2, the buffer is consumed), `timestamp` stays 10, and the probe
invokes `send_init` although an object was parsed in this very cycle. -/
theorem liveness_probe_counterexample :
    (read (sample_env ℚ sky_text (sky_doc ℚ) (fun _ => 0) (fun _ => 1) 3)
        (sample_cycle ℚ 1000 [sky_text]) (stamped_gpsd ℚ)).map
        (fun g => (g.send_init_calls, g.gps_node "satellites", g.gps_node "timestamp",
          g.json_buffer))
      = some (1, some (PropVal.int 2), some (PropVal.double 10), []) := by
  rw [read_sky_cycle]
  rfl

/-- C9, liveness probe, amended: in a `read` cycle whose buffer processing
leaves the driver in state `g1`, `send_init` is invoked afterwards, once,
exactly when the clock reads more than the value of the record's field
`timestamp` plus 5 and more than `last_init_time` plus 5 (the field is the
host time of the last `TPV` report whose time was decoded, not of the last
object parsed); the invocation, on a connected socket, sets `last_init_time`
to the clock reading and drops the connection when a non-empty init string
cannot be sent; when one of the two comparisons fails `read` ends in `g1`;
and `read` returns whenever the buffer processing does. -/
theorem liveness_probe_amended {F : Type} [LinearOrderedField F] (E : Env F) (W : Cycle F)
    (g : gpsd_t F) :
    (read_buffer E W g = none → read E W g = none) ∧
    ∀ g1, read_buffer E W g = some g1 →
      (W.t_probe1 > g1.gps_node.getDouble "timestamp" + 5 ∧
          W.t_probe2 > g1.last_init_time + 5 →
        read E W g = some { g1 with
          send_init_calls := g1.send_init_calls + 1
          socket_connected := g1.socket_connected &&
            !(decide (g1.init_string ≠ []) && decide (W.probe_send_result < 0))
          last_init_time :=
            if g1.socket_connected = true then W.t_probe_init else g1.last_init_time }) ∧
      (¬ (W.t_probe1 > g1.gps_node.getDouble "timestamp" + 5 ∧
          W.t_probe2 > g1.last_init_time + 5) →
        read E W g = some g1) := by
  constructor
  · intro h
    simp only [read, h, Option.none_bind]
  · intro g1 hbuf
    constructor
    · intro h
      simp only [read, hbuf, Option.some_bind, if_pos h, send_init]
      cases hc : g1.socket_connected <;> by_cases hi : g1.init_string = [] <;>
        by_cases hr : W.probe_send_result < 0 <;> simp [hc, hi, hr]
    · intro h
      simp only [read, hbuf, Option.some_bind, if_neg h]

theorem liveness_probe_amended_witness :
    read (sample_env ℚ sky_text (sky_doc ℚ) (fun _ => 0) (fun _ => 1) 3)
        (sample_cycle ℚ 1000 [sky_text]) (stamped_gpsd ℚ)
      = some { stamped_gpsd ℚ with
          gps_node := (stamped_gpsd ℚ).gps_node.setInt "satellites" 2
          send_init_calls := 1
          last_init_time := 1000 } :=
  ((liveness_probe_amended (sample_env ℚ sky_text (sky_doc ℚ) (fun _ => 0) (fun _ => 1) 3)
    (sample_cycle ℚ 1000 [sky_text]) (stamped_gpsd ℚ)).2
    { stamped_gpsd ℚ with gps_node := (stamped_gpsd ℚ).gps_node.setInt "satellites" 2 }
    rfl).1 sky_cycle_probe

end Gpsd
